import Mathlib

/-!
A shallow embedding of the sequence-to-sequence model of the `cleartext`
repository: `cleartext/models/encoder_decoder.py` (GRU topology with
summation-reduced attention scores) and `cleartext/models/components.py`
(LSTM topology with a learned scalar projection of attention scores).

Tensors are total functions over `Fin`-indexed axes with rational entries.
The transcendental activations used by the network (the exponential inside
softmax, `tanh`, the GRU gate sigmoid) are parameters of the embedding:
every theorem that needs a property of one of them (e.g. positivity of the
exponential) takes that property as a hypothesis.  Dropout layers are
modelled as an arbitrary elementwise map carried by each module (the
identity map in eval mode); no property below depends on the random mask.
-/

namespace Cleartext

/-- A feature vector of width `n` (one tensor slice along the feature axis). -/
abbrev Vec (n : ℕ) : Type := Fin n → ℚ

/-- `torch.cat((x, y))` along the feature axis. -/
def catVec {m n : ℕ} (x : Vec m) (y : Vec n) : Vec (m + n) := fun i =>
  if h : (i : ℕ) < m then x ⟨i, h⟩
  else y ⟨(i : ℕ) - m, by have := i.isLt; omega⟩

/-- `nn.Linear(inF, outF)`: an affine map given by a weight matrix and a bias. -/
structure Linear (inF outF : ℕ) : Type where
  weight : Fin outF → Fin inF → ℚ
  bias : Fin outF → ℚ

/-- Application of a linear layer: `W x + b`. -/
def Linear.apply {m n : ℕ} (f : Linear m n) (x : Vec m) : Vec n :=
  fun j => f.bias j + ∑ i, f.weight j i * x i

/-- `F.softmax(s, dim)` over one row, with the exponential abstracted as `e`:
each score is mapped through `e` and normalized by the row total. -/
def softmax {L : ℕ} (e : ℚ → ℚ) (s : Fin L → ℚ) : Fin L → ℚ :=
  fun l => e (s l) / ∑ m, e (s m)

theorem softmax_denom_pos {L : ℕ} (e : ℚ → ℚ) (he : ∀ x, 0 < e x) (hL : 0 < L)
    (s : Fin L → ℚ) : 0 < ∑ m, e (s m) :=
  Finset.sum_pos (fun i _ => he (s i)) ⟨⟨0, hL⟩, Finset.mem_univ _⟩

theorem softmax_nonneg {L : ℕ} (e : ℚ → ℚ) (he : ∀ x, 0 < e x)
    (s : Fin L → ℚ) (l : Fin L) : 0 ≤ softmax e s l := by
  unfold softmax
  rcases Nat.eq_zero_or_pos L with h | h
  · exact absurd l.isLt (by omega)
  · exact div_nonneg (le_of_lt (he (s l))) (le_of_lt (softmax_denom_pos e he h s))

theorem softmax_sum_one {L : ℕ} (e : ℚ → ℚ) (he : ∀ x, 0 < e x) (hL : 0 < L)
    (s : Fin L → ℚ) : ∑ l, softmax e s l = 1 := by
  unfold softmax
  rw [← Finset.sum_div]
  exact div_self (ne_of_gt (softmax_denom_pos e he hL s))

/-! ### Attention, summation-reduced variant (`encoder_decoder.py`)

`Attention.__init__(state_dim, units, dropout=0)` builds
`fc = nn.Linear(state_dim * 3, units)` (written `U + (U + U)` here, the width
of concatenating the decoder state with the bidirectional encoder output)
and a dropout layer. -/
structure Attention (U A : ℕ) : Type where
  fc : Linear (U + (U + U)) A
  drop : ℚ → ℚ

/-- `Attention.forward(dec_state, enc_outputs)` of `encoder_decoder.py`:
repeat the decoder state along the source axis, concatenate with the
(permuted) encoder outputs, apply dropout, a linear layer and `tanh`,
reduce by summation over the feature axis (`torch.sum(scores, dim=2)`),
and normalize with softmax along the source axis. -/
def Attention.forward {U A B L : ℕ} (e th : ℚ → ℚ) (m : Attention U A)
    (dec_state : Fin B → Vec U) (enc_outputs : Fin L → Fin B → Vec (U + U)) :
    Fin B → Fin L → ℚ :=
  let combined : Fin B → Fin L → Vec (U + (U + U)) :=
    fun b l => catVec (dec_state b) (enc_outputs l b)
  let dropped : Fin B → Fin L → Vec (U + (U + U)) :=
    fun b l i => m.drop (combined b l i)
  let scores : Fin B → Fin L → ℚ :=
    fun b l => ∑ j, th (m.fc.apply (dropped b l) j)
  fun b => softmax e (scores b)

/-! ### Attention, learned-projection variant (`components.py`)

`Attention.__init__(enc_units, dec_units, attn_units, dropout=0.2)` builds
`fc1 = nn.Linear(2 * enc_units + dec_units, attn_units)` (written
`decU + (encU + encU)`, the width of the concatenation as formed in
`forward`) and `fc2 = nn.Linear(attn_units, 1)`. -/
structure CAttention (encU decU A : ℕ) : Type where
  fc1 : Linear (decU + (encU + encU)) A
  fc2 : Linear A 1
  drop : ℚ → ℚ

/-- `Attention.forward` of `components.py`: as in the other variant but the
projected features are reduced to a scalar score by the learned layer `fc2`
(then `squeeze(-1)`) instead of summation. -/
def CAttention.forward {encU decU A B L : ℕ} (e th : ℚ → ℚ)
    (m : CAttention encU decU A) (dec_state : Fin B → Vec decU)
    (enc_outputs : Fin L → Fin B → Vec (encU + encU)) :
    Fin B → Fin L → ℚ :=
  let combined : Fin B → Fin L → Vec (decU + (encU + encU)) :=
    fun b l => catVec (dec_state b) (enc_outputs l b)
  let dropped : Fin B → Fin L → Vec (decU + (encU + encU)) :=
    fun b l i => m.drop (combined b l i)
  let scores : Fin B → Fin L → ℚ :=
    fun b l => m.fc2.apply (fun j => th (m.fc1.apply (dropped b l) j)) ⟨0, Nat.one_pos⟩
  fun b => softmax e (scores b)

/-! ### Embedding lookup, GRU cell and remaining modules of `encoder_decoder.py` -/

/-- `nn.Embedding.from_pretrained(weights)`: a frozen table of `V` rows of
width `E`. -/
structure Embedding (V E : ℕ) : Type where
  table : Fin V → Vec E

/-- Embedding lookup.  A token id outside `[0, V)` is a caller contract
violation in the source (undefined numerically); the embedding totalizes it
to the zero vector, which no theorem below relies on. -/
def Embedding.lookup {V E : ℕ} (emb : Embedding V E) (tok : ℕ) : Vec E :=
  if h : tok < V then emb.table ⟨tok, h⟩ else 0

/-- Parameters of one direction of `nn.GRU(inF, hid)` (single layer):
input-to-hidden and hidden-to-hidden weights and biases for the reset,
update and new gates. -/
structure GRUCellP (inF hid : ℕ) : Type where
  wir : Fin hid → Fin inF → ℚ
  wiz : Fin hid → Fin inF → ℚ
  win : Fin hid → Fin inF → ℚ
  whr : Fin hid → Fin hid → ℚ
  whz : Fin hid → Fin hid → ℚ
  whn : Fin hid → Fin hid → ℚ
  bir : Fin hid → ℚ
  biz : Fin hid → ℚ
  bin : Fin hid → ℚ
  bhr : Fin hid → ℚ
  bhz : Fin hid → ℚ
  bhn : Fin hid → ℚ

/-- One GRU step (the standard torch GRU cell recurrence), with the gate
sigmoid `sg` and `tanh` `th` abstracted:
`r = sg(W_ir x + b_ir + W_hr h + b_hr)`, `z` likewise,
`n = th(W_in x + b_in + r ⊙ (W_hn h + b_hn))`, `h' = (1 - z) ⊙ n + z ⊙ h`. -/
def gruCell {i h : ℕ} (sg th : ℚ → ℚ) (p : GRUCellP i h) (x : Vec i)
    (hprev : Vec h) : Vec h :=
  let r : Vec h := fun j =>
    sg ((p.bir j + ∑ k, p.wir j k * x k) + (p.bhr j + ∑ k, p.whr j k * hprev k))
  let z : Vec h := fun j =>
    sg ((p.biz j + ∑ k, p.wiz j k * x k) + (p.bhz j + ∑ k, p.whz j k * hprev k))
  let n : Vec h := fun j =>
    th ((p.bin j + ∑ k, p.win j k * x k) + r j * (p.bhn j + ∑ k, p.whn j k * hprev k))
  fun j => (1 - z j) * n j + z j * hprev j

/-- Run a GRU direction over the first `k` entries of the input stream `xs`,
starting from the all-zero initial state (torch's default when no initial
state is passed).  `gruRun sg th p xs k` is the hidden state after consuming
`xs 0, …, xs (k-1)`. -/
def gruRun {i h : ℕ} (sg th : ℚ → ℚ) (p : GRUCellP i h) (xs : ℕ → Vec i) :
    ℕ → Vec h
  | 0 => 0
  | k + 1 => gruCell sg th p (xs k) (gruRun sg th p xs k)

/-- `Encoder` of `encoder_decoder.py`: frozen embedding, bidirectional
single-layer `nn.GRU(embed_dim, units)` (one parameter set per direction),
`fc = nn.Linear(units * 2, units)` (written `U + U`, the width of
concatenating the two final directional states) and dropout. -/
structure Encoder (V E U : ℕ) : Type where
  embedding : Embedding V E
  gruF : GRUCellP E U
  gruB : GRUCellP E U
  fc : Linear (U + U) U
  drop : ℚ → ℚ

/-- `Encoder.forward(source)` of `encoder_decoder.py`: embed, run the
bidirectional GRU, return (a) the per-position outputs — at position `l` the
forward state after `l + 1` tokens concatenated with the backward state
after the last `L - l` tokens — and (b) the decoder initial state
`tanh(fc(dropout(cat(state[-2], state[-1]))))`, where `state[-2]` is the
final forward state and `state[-1]` the final backward state. -/
def Encoder.forward {V E U L B : ℕ} (sg th : ℚ → ℚ) (m : Encoder V E U)
    (source : Fin L → Fin B → ℕ) :
    (Fin L → Fin B → Vec (U + U)) × (Fin B → Vec U) :=
  let embedded : ℕ → Fin B → Vec E := fun l b =>
    if h : l < L then m.embedding.lookup (source ⟨l, h⟩ b) else 0
  let fwd : Fin B → ℕ → Vec U := fun b =>
    gruRun sg th m.gruF (fun k => embedded k b)
  let bwd : Fin B → ℕ → Vec U := fun b =>
    gruRun sg th m.gruB (fun k => embedded (L - 1 - k) b)
  let outputs : Fin L → Fin B → Vec (U + U) := fun l b =>
    catVec (fwd b ((l : ℕ) + 1)) (bwd b (L - (l : ℕ)))
  let combined : Fin B → Vec (U + U) := fun b => catVec (fwd b L) (bwd b L)
  let state : Fin B → Vec U := fun b j =>
    th (m.fc.apply (fun i => m.drop (combined b i)) j)
  (outputs, state)

/-- `Decoder` of `encoder_decoder.py`: frozen embedding,
`rnn = nn.GRU((units * 2) + embed_dim, units)` (written `E + (U + U)`, the
width of concatenating the embedded token with the context vector as formed
in `forward`), `fc = nn.Linear(units + context_size + embed_dim, vocab)`
with `context_size = 2 * rnn_units` (written `U + ((U + U) + E)`, the width
of concatenating GRU output, context and embedding), and dropout. -/
structure Decoder (V E U : ℕ) : Type where
  embedding : Embedding V E
  rnn : GRUCellP (E + (U + U)) U
  fc : Linear (U + ((U + U) + E)) V
  drop : ℚ → ℚ

/-- The input fed into the decoder's recurrent layer:
`rnn_input = torch.cat((embedded, context), dim=2)` — the raw embedding of
the previous token concatenated with the context vector. -/
def Decoder.rnnInput {V E U B : ℕ} (m : Decoder V E U) (token : Fin B → ℕ)
    (context : Fin B → Vec (U + U)) : Fin B → Vec (E + (U + U)) :=
  fun b => catVec (m.embedding.lookup (token b)) (context b)

/-- `Decoder.forward(token, dec_state, context)` of `encoder_decoder.py`:
embed the token, concatenate with the context vector, take one GRU step
(for a length-1 sequence the GRU output equals the new state), then
concatenate GRU output, context and embedding, apply dropout and project to
vocabulary logits.  Returns `(logits, new_state)`. -/
def Decoder.forward {V E U B : ℕ} (sg th : ℚ → ℚ) (m : Decoder V E U)
    (token : Fin B → ℕ) (dec_state : Fin B → Vec U)
    (context : Fin B → Vec (U + U)) : (Fin B → Vec V) × (Fin B → Vec U) :=
  let embedded : Fin B → Vec E := fun b => m.embedding.lookup (token b)
  let output : Fin B → Vec U := fun b =>
    gruCell sg th m.rnn (m.rnnInput token context b) (dec_state b)
  let combined : Fin B → Vec (U + ((U + U) + E)) := fun b =>
    catVec (output b) (catVec (context b) (embedded b))
  let logits : Fin B → Vec V := fun b =>
    m.fc.apply (fun i => m.drop (combined b i))
  (logits, output)

/-! ### The orchestrator `EncoderDecoder` of `encoder_decoder.py` -/

/-- `EncoderDecoder.__init__` wires `Encoder(embed_src, rnn_units, dropout)`,
`Attention(rnn_units, attn_units)` and
`Decoder(embed_trg, rnn_units, 2 * rnn_units, dropout)` from a single shared
`rnn_units`. -/
structure EncoderDecoder (Vs Es Vt Et U A : ℕ) : Type where
  encoder : Encoder Vs Es U
  attention : Attention U A
  decoder : Decoder Vt Et U

/-- `weights.unsqueeze(1)`: insert a length-1 axis. -/
def unsqueeze1 {B L : ℕ} (w : Fin B → Fin L → ℚ) : Fin B → Fin 1 → Fin L → ℚ :=
  fun b _ l => w b l

/-- `torch.bmm`: batched matrix product. -/
def bmm {B m k n : ℕ} (x : Fin B → Fin m → Fin k → ℚ)
    (y : Fin B → Fin k → Fin n → ℚ) : Fin B → Fin m → Fin n → ℚ :=
  fun b i j => ∑ l, x b i l * y b l j

/-- `t.permute(1, 0, 2)`: swap the first two axes. -/
def permute102 {a b : Type} {c : ℕ} (x : a → b → Fin c → ℚ) :
    b → a → Fin c → ℚ :=
  fun i j => x j i

/-- The body of `EncoderDecoder._compute_context` after the attention call:
`torch.bmm(weights.unsqueeze(1), enc_outputs.permute(1, 0, 2)).permute(1, 0, 2)`. -/
def contextFromWeights {B L D : ℕ} (w : Fin B → Fin L → ℚ)
    (enc_outputs : Fin L → Fin B → Vec D) : Fin 1 → Fin B → Vec D :=
  permute102 (bmm (unsqueeze1 w) (permute102 enc_outputs))

/-- `EncoderDecoder._compute_context(dec_state, enc_outputs)`: attention
weights from the current decoder state, then the batched weighted
combination of encoder outputs. -/
def EncoderDecoder.computeContext {Vs Es Vt Et U A B L : ℕ} (e th : ℚ → ℚ)
    (m : EncoderDecoder Vs Es Vt Et U A) (dec_state : Fin B → Vec U)
    (enc_outputs : Fin L → Fin B → Vec (U + U)) : Fin 1 → Fin B → Vec (U + U) :=
  contextFromWeights (m.attention.forward e th dec_state enc_outputs) enc_outputs

/-- `out.max(1)[1]` for one batch row: the index of the first maximal entry
(torch returns the index of the first maximal value). -/
def argmaxIdx : {V : ℕ} → (Fin V → ℚ) → ℕ
  | 0, _ => 0
  | v + 1, f =>
    ((List.finRange (v + 1)).foldl
      (fun best i => if f best < f i then i else best) ⟨0, Nat.succ_pos v⟩).val

/-- The mutable state threaded through the decode loop of
`EncoderDecoder.forward`: the previous-token variable `out`, the decoder
state `state`, and the output tensor `outputs` (indexed by time step). -/
structure RollState (B U Vt : ℕ) : Type where
  prevTok : Fin B → ℕ
  dec : Fin B → Vec U
  out : ℕ → Fin B → Vec Vt

/-- One iteration of the decode loop at step `t`:
`context = _compute_context(state, enc_outputs)`;
`out, state = decoder(out, state, context)`; `outputs[t] = out`;
`teacher_force = random.random() < teacher_forcing` (the draw at step `t` is
`r t`); `out = target[t] if teacher_force else out.max(1)[1]`. -/
def EncoderDecoder.step {Vs Es Vt Et U A B L : ℕ} (sg th e : ℚ → ℚ)
    (m : EncoderDecoder Vs Es Vt Et U A)
    (enc_outputs : Fin L → Fin B → Vec (U + U)) (target : ℕ → Fin B → ℕ)
    (teacher_forcing : ℚ) (r : ℕ → ℚ) (t : ℕ) (st : RollState B U Vt) :
    RollState B U Vt :=
  let context : Fin B → Vec (U + U) := fun b =>
    m.computeContext e th st.dec enc_outputs ⟨0, Nat.one_pos⟩ b
  let res := m.decoder.forward sg th st.prevTok st.dec context
  { prevTok := fun b =>
      if r t < teacher_forcing then target t b else argmaxIdx (res.1 b)
    dec := res.2
    out := Function.update st.out t res.1 }

/-- `roll … k` is the loop state after the iterations `t = 1, …, k` of the
decode loop of `EncoderDecoder.forward` have run.  `roll … 0` is the state
just before the loop: `out = target[0, :]` (the seed token, taken from
ground truth unconditionally), the decoder state produced by the encoder,
and the zero-initialized output tensor. -/
def EncoderDecoder.roll {Vs Es Vt Et U A B L : ℕ} (sg th e : ℚ → ℚ)
    (m : EncoderDecoder Vs Es Vt Et U A) (source : Fin L → Fin B → ℕ)
    (target : ℕ → Fin B → ℕ) (teacher_forcing : ℚ) (r : ℕ → ℚ) :
    ℕ → RollState B U Vt
  | 0 =>
    { prevTok := fun b => target 0 b
      dec := (m.encoder.forward sg th source).2
      out := fun _ _ _ => 0 }
  | k + 1 =>
    m.step sg th e (m.encoder.forward sg th source).1 target teacher_forcing r
      (k + 1) (m.roll sg th e source target teacher_forcing r k)

/-- The previous token consumed by the decoder at loop step `t ≥ 1`: the
value of the variable `out` entering iteration `t`, i.e. the `prevTok` field
after `t - 1` iterations. -/
def EncoderDecoder.consumedTok {Vs Es Vt Et U A B L : ℕ} (sg th e : ℚ → ℚ)
    (m : EncoderDecoder Vs Es Vt Et U A) (source : Fin L → Fin B → ℕ)
    (target : ℕ → Fin B → ℕ) (teacher_forcing : ℚ) (r : ℕ → ℚ) (t : ℕ) :
    Fin B → ℕ :=
  ((m.roll sg th e source target teacher_forcing r (t - 1) :
      RollState B U Vt)).prevTok

/-- `EncoderDecoder.forward(source, target, teacher_forcing)`: encode once,
seed with `target[0, :]`, run the decode loop for `t = 1, …, max_len - 1`
and return the output tensor of shape `(max_len, batch_size, vocab_size)`
(`max_len = target.shape[0]`, `batch_size = source.shape[1]`). -/
def EncoderDecoder.forward {Vs Es Vt Et U A B L : ℕ} (maxLen : ℕ)
    (sg th e : ℚ → ℚ) (m : EncoderDecoder Vs Es Vt Et U A)
    (source : Fin L → Fin B → ℕ) (target : ℕ → Fin B → ℕ)
    (teacher_forcing : ℚ) (r : ℕ → ℚ) : Fin maxLen → Fin B → Vec Vt :=
  fun t =>
    ((m.roll sg th e source target teacher_forcing r (maxLen - 1) :
        RollState B U Vt)).out t

/-! ### Concrete instances used by counterexamples and witnesses -/

/-- A concrete summation-variant attention module (`U = A = 1`, zero weights,
identity dropout). -/
def attn0 : Attention 1 1 :=
  ⟨⟨fun _ _ => 0, fun _ => 0⟩, fun x => x⟩

/-- A concrete projection-variant attention module (`encU = decU = A = 1`,
zero weights, identity dropout). -/
def cattn0 : CAttention 1 1 1 :=
  ⟨⟨fun _ _ => 0, fun _ => 0⟩, ⟨fun _ _ => 0, fun _ => 0⟩, fun x => x⟩

/-- A concrete decoder state for batch size 1. -/
def ds1c : Fin 1 → Vec 1 := fun _ _ => 0

/-- Concrete encoder outputs for source length 1, batch size 1. -/
def eo1c : Fin 1 → Fin 1 → Vec 2 := fun _ _ _ => 0

/-- **C1** (amended: positive source length).  For every decoder state and
encoder output sequence over a positive source length, the attention weights
returned by `Attention.forward` are non-negative in every entry and each
batch element's row sums to 1, in both the summation-reduced variant and the
learned-projection variant.  `e` is the exponential applied by the softmax,
positive on every input. -/
theorem attention_weights_prob_dist
    {U A B L encU decU A2 : ℕ} (e th : ℚ → ℚ)
    (m1 : Attention U A) (m2 : CAttention encU decU A2)
    (ds1 : Fin B → Vec U) (eo1 : Fin L → Fin B → Vec (U + U))
    (ds2 : Fin B → Vec decU) (eo2 : Fin L → Fin B → Vec (encU + encU))
    (he : ∀ x, 0 < e x) (hL : 0 < L) (b : Fin B) :
    ((∀ l, 0 ≤ m1.forward e th ds1 eo1 b l) ∧
      ∑ l, m1.forward e th ds1 eo1 b l = 1) ∧
    ((∀ l, 0 ≤ m2.forward e th ds2 eo2 b l) ∧
      ∑ l, m2.forward e th ds2 eo2 b l = 1) :=
  ⟨⟨fun l => softmax_nonneg e he _ l, softmax_sum_one e he hL _⟩,
   ⟨fun l => softmax_nonneg e he _ l, softmax_sum_one e he hL _⟩⟩

/-- **C1** fails as literally stated for *any* source length: at source
length 0 the weight row is empty, so it sums to 0, not 1. -/
theorem attention_weights_empty_row :
    ¬ (∑ l : Fin 0,
        attn0.forward (fun _ => 1) (fun x => x) ds1c (fun l _ => Fin.elim0 l)
          ⟨0, Nat.one_pos⟩ l = 1) := by
  simp

/-- Witness for `attention_weights_prob_dist` at a concrete configuration. -/
theorem attention_weights_prob_dist_witness :
    (∀ x : ℚ, 0 < (fun _ : ℚ => (1 : ℚ)) x) ∧ 0 < 1 ∧
    (((∀ l, 0 ≤ attn0.forward (fun _ => 1) (fun x => x) ds1c eo1c
          ⟨0, Nat.one_pos⟩ l) ∧
        ∑ l, attn0.forward (fun _ => 1) (fun x => x) ds1c eo1c
          ⟨0, Nat.one_pos⟩ l = 1) ∧
      ((∀ l, 0 ≤ cattn0.forward (fun _ => 1) (fun x => x) ds1c eo1c
          ⟨0, Nat.one_pos⟩ l) ∧
        ∑ l, cattn0.forward (fun _ => 1) (fun x => x) ds1c eo1c
          ⟨0, Nat.one_pos⟩ l = 1)) :=
  ⟨fun _ => one_pos, Nat.one_pos,
    attention_weights_prob_dist _ _ attn0 cattn0 ds1c eo1c ds1c eo1c
      (fun _ => one_pos) Nat.one_pos ⟨0, Nat.one_pos⟩⟩

/-! ### The context combiner (`EncoderDecoder._compute_context`) -/

/-- The context combiner as the spec words it: per batch element, the
weighted sum over source positions of the encoder output vectors. -/
def specContext {B L D : ℕ} (w : Fin B → Fin L → ℚ)
    (enc : Fin L → Fin B → Vec D) : Fin B → Vec D :=
  fun b d => ∑ l, w b l * enc l b d

theorem inf_le_weighted_sum {L : ℕ} (hL : 0 < L) (w x : Fin L → ℚ)
    (hw : ∀ l, 0 ≤ w l) (hs : ∑ l, w l = 1) :
    Finset.univ.inf' ⟨⟨0, hL⟩, Finset.mem_univ _⟩ x ≤ ∑ l, w l * x l := by
  have hne : (Finset.univ : Finset (Fin L)).Nonempty := ⟨⟨0, hL⟩, Finset.mem_univ _⟩
  calc Finset.univ.inf' hne x = (∑ l, w l) * Finset.univ.inf' hne x := by
        rw [hs, one_mul]
    _ = ∑ l, w l * Finset.univ.inf' hne x := by rw [Finset.sum_mul]
    _ ≤ ∑ l, w l * x l := by
        apply Finset.sum_le_sum
        intro l _
        exact mul_le_mul_of_nonneg_left (Finset.inf'_le x (Finset.mem_univ l)) (hw l)

theorem weighted_sum_le_sup {L : ℕ} (hL : 0 < L) (w x : Fin L → ℚ)
    (hw : ∀ l, 0 ≤ w l) (hs : ∑ l, w l = 1) :
    ∑ l, w l * x l ≤ Finset.univ.sup' ⟨⟨0, hL⟩, Finset.mem_univ _⟩ x := by
  have hne : (Finset.univ : Finset (Fin L)).Nonempty := ⟨⟨0, hL⟩, Finset.mem_univ _⟩
  calc ∑ l, w l * x l ≤ ∑ l, w l * Finset.univ.sup' hne x := by
        apply Finset.sum_le_sum
        intro l _
        exact mul_le_mul_of_nonneg_left (Finset.le_sup' x (Finset.mem_univ l)) (hw l)
    _ = (∑ l, w l) * Finset.univ.sup' hne x := by rw [Finset.sum_mul]
    _ = Finset.univ.sup' hne x := by rw [hs, one_mul]

/-- **C5**.  For every decoder state and encoder output sequence (positive
source length, softmax exponential positive), the context computed by
`_compute_context` equals, per batch element, the weighted sum over source
positions of the encoder output vectors, and — the weights being
non-negative and summing to 1 — every coordinate lies between the minimum
and the maximum of that coordinate over the per-position encoder outputs. -/
theorem context_convex_combination
    {Vs Es Vt Et U A B L : ℕ} (e th : ℚ → ℚ)
    (m : EncoderDecoder Vs Es Vt Et U A)
    (dec_state : Fin B → Vec U) (enc_outputs : Fin L → Fin B → Vec (U + U))
    (he : ∀ x, 0 < e x) (hL : 0 < L) (b : Fin B) (d : Fin (U + U)) :
    m.computeContext e th dec_state enc_outputs ⟨0, Nat.one_pos⟩ b d =
      specContext (m.attention.forward e th dec_state enc_outputs) enc_outputs b d ∧
    Finset.univ.inf' ⟨⟨0, hL⟩, Finset.mem_univ _⟩ (fun l => enc_outputs l b d) ≤
      m.computeContext e th dec_state enc_outputs ⟨0, Nat.one_pos⟩ b d ∧
    m.computeContext e th dec_state enc_outputs ⟨0, Nat.one_pos⟩ b d ≤
      Finset.univ.sup' ⟨⟨0, hL⟩, Finset.mem_univ _⟩ (fun l => enc_outputs l b d) := by
  have hw : ∀ l, 0 ≤ m.attention.forward e th dec_state enc_outputs b l :=
    fun l => softmax_nonneg e he _ l
  have hs : ∑ l, m.attention.forward e th dec_state enc_outputs b l = 1 :=
    softmax_sum_one e he hL _
  have h1 : m.computeContext e th dec_state enc_outputs ⟨0, Nat.one_pos⟩ b d =
      ∑ l, m.attention.forward e th dec_state enc_outputs b l * enc_outputs l b d :=
    rfl
  refine ⟨rfl, ?_, ?_⟩
  · rw [h1]
    exact inf_le_weighted_sum hL _ _ hw hs
  · rw [h1]
    exact weighted_sum_le_sup hL _ _ hw hs

/-! ### A concrete full model (zero weights, identity activations) -/

/-- An all-zero linear layer. -/
def zeroLinear (m n : ℕ) : Linear m n := ⟨fun _ _ => 0, fun _ => 0⟩

/-- An all-zero GRU parameter set. -/
def zeroGRU (i h : ℕ) : GRUCellP i h :=
  ⟨fun _ _ => 0, fun _ _ => 0, fun _ _ => 0, fun _ _ => 0, fun _ _ => 0,
   fun _ _ => 0, fun _ => 0, fun _ => 0, fun _ => 0, fun _ => 0, fun _ => 0,
   fun _ => 0⟩

/-- An all-zero embedding table. -/
def emb0 (V E : ℕ) : Embedding V E := ⟨fun _ _ => 0⟩

/-- A concrete encoder with source vocabulary 1, embedding width 1, 1 unit. -/
def enc0 : Encoder 1 1 1 := ⟨emb0 1 1, zeroGRU 1 1, zeroGRU 1 1, zeroLinear 2 1, fun x => x⟩

/-- A concrete decoder with target vocabulary 2, embedding width 1, 1 unit. -/
def dec0 : Decoder 2 1 1 := ⟨emb0 2 1, zeroGRU 3 1, zeroLinear 4 2, fun x => x⟩

/-- A concrete full model. -/
def ed0 : EncoderDecoder 1 1 2 1 1 1 := ⟨enc0, attn0, dec0⟩

/-- Witness for `context_convex_combination` at a concrete configuration. -/
theorem context_convex_combination_witness :
    (∀ x : ℚ, 0 < (fun _ : ℚ => (1 : ℚ)) x) ∧ 0 < 1 ∧
    (ed0.computeContext (fun _ => 1) (fun x => x) ds1c eo1c ⟨0, Nat.one_pos⟩
        ⟨0, Nat.one_pos⟩ ⟨0, by omega⟩ =
      specContext (ed0.attention.forward (fun _ => 1) (fun x => x) ds1c eo1c)
        eo1c ⟨0, Nat.one_pos⟩ ⟨0, by omega⟩ ∧
    Finset.univ.inf' ⟨⟨0, Nat.one_pos⟩, Finset.mem_univ _⟩
        (fun l => eo1c l ⟨0, Nat.one_pos⟩ ⟨0, by omega⟩) ≤
      ed0.computeContext (fun _ => 1) (fun x => x) ds1c eo1c ⟨0, Nat.one_pos⟩
        ⟨0, Nat.one_pos⟩ ⟨0, by omega⟩ ∧
    ed0.computeContext (fun _ => 1) (fun x => x) ds1c eo1c ⟨0, Nat.one_pos⟩
        ⟨0, Nat.one_pos⟩ ⟨0, by omega⟩ ≤
      Finset.univ.sup' ⟨⟨0, Nat.one_pos⟩, Finset.mem_univ _⟩
        (fun l => eo1c l ⟨0, Nat.one_pos⟩ ⟨0, by omega⟩)) :=
  ⟨fun _ => one_pos, Nat.one_pos,
    context_convex_combination (fun _ => 1) (fun x => x) ed0 ds1c eo1c
      (fun _ => one_pos) Nat.one_pos ⟨0, Nat.one_pos⟩ ⟨0, by omega⟩⟩

/-! ### Unfolding lemmas for the decode loop -/

attribute [ext] RollState

theorem EncoderDecoder.step_prevTok {Vs Es Vt Et U A B L : ℕ} (sg th e : ℚ → ℚ)
    (m : EncoderDecoder Vs Es Vt Et U A)
    (enc_outputs : Fin L → Fin B → Vec (U + U)) (target : ℕ → Fin B → ℕ)
    (tf : ℚ) (r : ℕ → ℚ) (t : ℕ) (st : RollState B U Vt) (b : Fin B) :
    (m.step sg th e enc_outputs target tf r t st).prevTok b =
      if r t < tf then target t b
      else argmaxIdx ((m.decoder.forward sg th st.prevTok st.dec
        (fun b' => m.computeContext e th st.dec enc_outputs ⟨0, Nat.one_pos⟩ b')).1 b) :=
  rfl

theorem EncoderDecoder.step_out {Vs Es Vt Et U A B L : ℕ} (sg th e : ℚ → ℚ)
    (m : EncoderDecoder Vs Es Vt Et U A)
    (enc_outputs : Fin L → Fin B → Vec (U + U)) (target : ℕ → Fin B → ℕ)
    (tf : ℚ) (r : ℕ → ℚ) (t : ℕ) (st : RollState B U Vt) :
    (m.step sg th e enc_outputs target tf r t st).out =
      Function.update st.out t
        ((m.decoder.forward sg th st.prevTok st.dec
          (fun b' => m.computeContext e th st.dec enc_outputs ⟨0, Nat.one_pos⟩ b')).1) :=
  rfl

theorem EncoderDecoder.roll_succ {Vs Es Vt Et U A B L : ℕ} (sg th e : ℚ → ℚ)
    (m : EncoderDecoder Vs Es Vt Et U A) (source : Fin L → Fin B → ℕ)
    (target : ℕ → Fin B → ℕ) (tf : ℚ) (r : ℕ → ℚ) (k : ℕ) :
    (m.roll sg th e source target tf r (k + 1) : RollState B U Vt) =
      m.step sg th e (m.encoder.forward sg th source).1 target tf r (k + 1)
        (m.roll sg th e source target tf r k) :=
  rfl

theorem roll_out_position_zero {Vs Es Vt Et U A B L : ℕ} (sg th e : ℚ → ℚ)
    (m : EncoderDecoder Vs Es Vt Et U A) (source : Fin L → Fin B → ℕ)
    (target : ℕ → Fin B → ℕ) (tf : ℚ) (r : ℕ → ℚ) (k : ℕ) :
    (m.roll sg th e source target tf r k : RollState B U Vt).out 0 =
      fun _ _ => 0 := by
  induction k with
  | zero => rfl
  | succ k ih =>
    rw [EncoderDecoder.roll_succ, EncoderDecoder.step_out,
      Function.update_noteq (by omega), ih]

/-- **C4**.  For every input and every teacher-forcing probability, position
0 of the output tensor returned by a full forward rollout is all zeros: the
tensor is zero-initialized and the decode loop writes only positions
`1 … target_len - 1`. -/
theorem output_position_zero_all_zero {Vs Es Vt Et U A B L : ℕ}
    (maxLen : ℕ) (sg th e : ℚ → ℚ) (m : EncoderDecoder Vs Es Vt Et U A)
    (source : Fin L → Fin B → ℕ) (target : ℕ → Fin B → ℕ) (tf : ℚ)
    (r : ℕ → ℚ) (h0 : 0 < maxLen) (b : Fin B) (v : Fin Vt) :
    m.forward maxLen sg th e source target tf r ⟨0, h0⟩ b v = 0 := by
  show (m.roll sg th e source target tf r (maxLen - 1) : RollState B U Vt).out 0 b v = 0
  rw [roll_out_position_zero]

/-- A concrete source batch: length 1, batch size 1. -/
def src0 : Fin 1 → Fin 1 → ℕ := fun _ _ => 0

/-- A concrete ground-truth target stream (batch size 1). -/
def tgt0 : ℕ → Fin 1 → ℕ := fun t _ => t % 2

/-- A concrete stream of uniform draws, all equal to 0. -/
def r0 : ℕ → ℚ := fun _ => 0

/-- Witness for `output_position_zero_all_zero` at a concrete configuration. -/
theorem output_position_zero_all_zero_witness :
    0 < 2 ∧
    ed0.forward 2 (fun x => x) (fun x => x) (fun _ => 1) src0 tgt0 (1 / 2) r0
      ⟨0, by omega⟩ ⟨0, Nat.one_pos⟩ ⟨0, by omega⟩ = 0 :=
  ⟨by omega,
    output_position_zero_all_zero 2 (fun x => x) (fun x => x) (fun _ => 1) ed0
      src0 tgt0 (1 / 2) r0 (by omega) ⟨0, Nat.one_pos⟩ ⟨0, by omega⟩⟩

/-- **C8**.  For a single-element batch whose target sequence has length 1
(only the start token), the forward pass returns an output tensor of shape
`(1, 1, vocab_size)` — the index types of the statement — that is entirely
zero: the decode loop `for t in range(1, 1)` executes zero iterations, so no
decoder step, attention computation, or output write occurs and the
zero-initialized tensor is returned unchanged. -/
theorem target_len_one_output_zero {Vs Es Vt Et U A L : ℕ} (sg th e : ℚ → ℚ)
    (m : EncoderDecoder Vs Es Vt Et U A) (source : Fin L → Fin 1 → ℕ)
    (target : ℕ → Fin 1 → ℕ) (tf : ℚ) (r : ℕ → ℚ) (t : Fin 1) (b : Fin 1)
    (v : Fin Vt) :
    m.forward 1 sg th e source target tf r t b v = 0 :=
  rfl

/-- **C2**.  With the teacher-forcing probability fixed at 1 and each uniform
draw lying in `[0, 1)`, the sequence of previous tokens fed into the decoder
equals the ground-truth target shifted by one position: the seed consumed at
step 1 is `target[0]` — taken from ground truth for *every* teacher-forcing
probability — and the token consumed at step `t` is `target[t-1]` for every
`t = 1 … target_len - 1`. -/
theorem teacher_forcing_one_ground_truth {Vs Es Vt Et U A B L : ℕ}
    (maxLen : ℕ) (sg th e : ℚ → ℚ) (m : EncoderDecoder Vs Es Vt Et U A)
    (source : Fin L → Fin B → ℕ) (target : ℕ → Fin B → ℕ) (r : ℕ → ℚ)
    (hr : ∀ t, 0 ≤ r t ∧ r t < 1) :
    (∀ tf : ℚ, ∀ b,
      (m.consumedTok sg th e source target tf r 1 : Fin B → ℕ) b = target 0 b) ∧
    (∀ t, 1 ≤ t → t < maxLen → ∀ b,
      (m.consumedTok sg th e source target 1 r t : Fin B → ℕ) b =
        target (t - 1) b) := by
  constructor
  · intro tf b
    rfl
  · intro t h1 _h2 b
    obtain ⟨k, rfl⟩ : ∃ k, t = k + 1 := ⟨t - 1, by omega⟩
    cases k with
    | zero => rfl
    | succ j =>
      have h3 : (m.consumedTok sg th e source target 1 r (j + 1 + 1) :
          Fin B → ℕ) b =
          (m.step sg th e (m.encoder.forward sg th source).1 target 1 r (j + 1)
            (m.roll sg th e source target 1 r j)).prevTok b := rfl
      rw [h3, EncoderDecoder.step_prevTok, if_pos (hr (j + 1)).2]
      rfl

/-- Witness for `teacher_forcing_one_ground_truth` at a concrete
configuration. -/
theorem teacher_forcing_one_ground_truth_witness :
    (∀ t, 0 ≤ r0 t ∧ r0 t < 1) ∧
    ((∀ tf : ℚ, ∀ b,
      (ed0.consumedTok (fun x => x) (fun x => x) (fun _ => 1) src0 tgt0 tf r0 1 :
        Fin 1 → ℕ) b = tgt0 0 b) ∧
    (∀ t, 1 ≤ t → t < 3 → ∀ b,
      (ed0.consumedTok (fun x => x) (fun x => x) (fun _ => 1) src0 tgt0 1 r0 t :
        Fin 1 → ℕ) b = tgt0 (t - 1) b)) :=
  ⟨fun _ => ⟨le_refl 0, one_pos⟩,
    teacher_forcing_one_ground_truth 3 (fun x => x) (fun x => x) (fun _ => 1)
      ed0 src0 tgt0 r0 (fun _ => ⟨le_refl 0, one_pos⟩)⟩

/-- **C3**.  With the teacher-forcing probability fixed at 0 and every
uniform draw non-negative, the previous token fed into the decoder at each
step `t ≥ 2` equals the arg-max (first maximal index, over the target
vocabulary) of the logits the decoder produced at step `t - 1` — the row the
loop stored at position `t - 1` of the output tensor — while step 1 still
consumes the seed token `target[0]`. -/
theorem teacher_forcing_zero_argmax {Vs Es Vt Et U A B L : ℕ}
    (maxLen : ℕ) (sg th e : ℚ → ℚ) (m : EncoderDecoder Vs Es Vt Et U A)
    (source : Fin L → Fin B → ℕ) (target : ℕ → Fin B → ℕ) (r : ℕ → ℚ)
    (hr : ∀ t, 0 ≤ r t) :
    (∀ b, (m.consumedTok sg th e source target 0 r 1 : Fin B → ℕ) b =
      target 0 b) ∧
    (∀ t, 2 ≤ t → t < maxLen → ∀ b,
      (m.consumedTok sg th e source target 0 r t : Fin B → ℕ) b =
        argmaxIdx
          ((m.roll sg th e source target 0 r (t - 1) : RollState B U Vt).out
            (t - 1) b)) := by
  constructor
  · intro b
    rfl
  · intro t h1 _h2 b
    obtain ⟨j, rfl⟩ : ∃ j, t = j + 2 := ⟨t - 2, by omega⟩
    have h3 : (m.consumedTok sg th e source target 0 r (j + 2) : Fin B → ℕ) b =
        (m.step sg th e (m.encoder.forward sg th source).1 target 0 r (j + 1)
          (m.roll sg th e source target 0 r j)).prevTok b := rfl
    have h4 : (m.roll sg th e source target 0 r (j + 2 - 1) :
        RollState B U Vt).out (j + 2 - 1) =
        ((m.decoder.forward sg th
          (m.roll sg th e source target 0 r j : RollState B U Vt).prevTok
          (m.roll sg th e source target 0 r j).dec
          (fun b' => m.computeContext e th
            (m.roll sg th e source target 0 r j).dec
            (m.encoder.forward sg th source).1 ⟨0, Nat.one_pos⟩ b')).1) := by
      show (m.roll sg th e source target 0 r (j + 1) : RollState B U Vt).out
          (j + 1) = _
      rw [EncoderDecoder.roll_succ, EncoderDecoder.step_out,
        Function.update_same]
    rw [h3, EncoderDecoder.step_prevTok,
      if_neg (not_lt.mpr (hr (j + 1))), h4]

/-- Witness for `teacher_forcing_zero_argmax` at a concrete configuration. -/
theorem teacher_forcing_zero_argmax_witness :
    (∀ t, 0 ≤ r0 t) ∧
    ((∀ b, (ed0.consumedTok (fun x => x) (fun x => x) (fun _ => 1) src0 tgt0 0
        r0 1 : Fin 1 → ℕ) b = tgt0 0 b) ∧
    (∀ t, 2 ≤ t → t < 3 → ∀ b,
      (ed0.consumedTok (fun x => x) (fun x => x) (fun _ => 1) src0 tgt0 0 r0 t :
        Fin 1 → ℕ) b =
        argmaxIdx
          ((ed0.roll (fun x => x) (fun x => x) (fun _ => 1) src0 tgt0 0 r0
            (t - 1) : RollState 1 1 2).out (t - 1) b))) :=
  ⟨fun _ => le_refl 0,
    teacher_forcing_zero_argmax 3 (fun x => x) (fun x => x) (fun _ => 1) ed0
      src0 tgt0 r0 (fun _ => le_refl 0)⟩

theorem EncoderDecoder.step_tf_congr {Vs Es Vt Et U A B L : ℕ}
    (sg th e : ℚ → ℚ) (m : EncoderDecoder Vs Es Vt Et U A)
    (enc_outputs : Fin L → Fin B → Vec (U + U)) (target : ℕ → Fin B → ℕ)
    (tf1 tf2 : ℚ) (r : ℕ → ℚ) (t : ℕ) (st : RollState B U Vt)
    (h : r t < tf1 ↔ r t < tf2) :
    m.step sg th e enc_outputs target tf1 r t st =
      m.step sg th e enc_outputs target tf2 r t st := by
  ext1
  · funext b
    rw [EncoderDecoder.step_prevTok, EncoderDecoder.step_prevTok]
    exact if_congr h rfl rfl
  · rfl
  · rfl

theorem EncoderDecoder.roll_tf_congr {Vs Es Vt Et U A B L : ℕ}
    (sg th e : ℚ → ℚ) (m : EncoderDecoder Vs Es Vt Et U A)
    (source : Fin L → Fin B → ℕ) (target : ℕ → Fin B → ℕ) (tf1 tf2 : ℚ)
    (r : ℕ → ℚ) (h : ∀ t, (r t < tf1 ↔ r t < tf2)) (k : ℕ) :
    (m.roll sg th e source target tf1 r k : RollState B U Vt) =
      m.roll sg th e source target tf2 r k := by
  induction k with
  | zero => rfl
  | succ k ih =>
    rw [EncoderDecoder.roll_succ, EncoderDecoder.roll_succ, ih]
    exact EncoderDecoder.step_tf_congr sg th e m _ target tf1 tf2 r (k + 1) _
      (h (k + 1))

/-- **C10**.  The forward pass does not validate the teacher-forcing
probability: with every uniform draw in `[0, 1)`, any probability `≥ 1`
yields exactly the behavior of probability 1 (every draw compares below it)
and any probability `≤ 0` yields exactly the behavior of probability 0 (no
draw compares below it); the embedding of the rollout is total, so no error
is raised for values outside `[0, 1]`. -/
theorem teacher_forcing_prob_unvalidated {Vs Es Vt Et U A B L : ℕ}
    (maxLen : ℕ) (sg th e : ℚ → ℚ) (m : EncoderDecoder Vs Es Vt Et U A)
    (source : Fin L → Fin B → ℕ) (target : ℕ → Fin B → ℕ) (r : ℕ → ℚ)
    (tfHi tfLo : ℚ) (hr : ∀ t, 0 ≤ r t ∧ r t < 1) (hHi : 1 ≤ tfHi)
    (hLo : tfLo ≤ 0) :
    m.forward maxLen sg th e source target tfHi r =
      m.forward maxLen sg th e source target 1 r ∧
    m.forward maxLen sg th e source target tfLo r =
      m.forward maxLen sg th e source target 0 r := by
  constructor
  · funext t b v
    show (m.roll sg th e source target tfHi r (maxLen - 1) :
        RollState B U Vt).out t b v = _
    rw [EncoderDecoder.roll_tf_congr sg th e m source target tfHi 1 r
      (fun t => iff_of_true (lt_of_lt_of_le (hr t).2 hHi) (hr t).2)]
    rfl
  · funext t b v
    show (m.roll sg th e source target tfLo r (maxLen - 1) :
        RollState B U Vt).out t b v = _
    rw [EncoderDecoder.roll_tf_congr sg th e m source target tfLo 0 r
      (fun t => iff_of_false (not_lt.mpr (le_trans hLo (hr t).1))
        (not_lt.mpr (hr t).1))]
    rfl

/-- Witness for `teacher_forcing_prob_unvalidated` at a concrete
configuration. -/
theorem teacher_forcing_prob_unvalidated_witness :
    ((∀ t, 0 ≤ r0 t ∧ r0 t < 1) ∧ (1 : ℚ) ≤ 3 / 2 ∧ (-1 : ℚ) ≤ 0) ∧
    (ed0.forward 3 (fun x => x) (fun x => x) (fun _ => 1) src0 tgt0 (3 / 2) r0 =
      ed0.forward 3 (fun x => x) (fun x => x) (fun _ => 1) src0 tgt0 1 r0 ∧
    ed0.forward 3 (fun x => x) (fun x => x) (fun _ => 1) src0 tgt0 (-1) r0 =
      ed0.forward 3 (fun x => x) (fun x => x) (fun _ => 1) src0 tgt0 0 r0) :=
  ⟨⟨fun _ => ⟨le_refl 0, one_pos⟩, by norm_num, by norm_num⟩,
    teacher_forcing_prob_unvalidated 3 (fun x => x) (fun x => x) (fun _ => 1)
      ed0 src0 tgt0 r0 (3 / 2) (-1) (fun _ => ⟨le_refl 0, one_pos⟩)
      (by norm_num) (by norm_num)⟩

/-! ### The decoder input-construction stage of `components.py` -/

/-- The modules of `components.py`'s `Decoder` used by its input-construction
stage (embed the previous token, apply dropout, concatenate with the context
vector): the frozen embedding table and the dropout map.  The LSTM stack and
the output projection that consume the result play no role in any property
below. -/
structure CDecoder (V E encU : ℕ) : Type where
  embedding : Embedding V E
  drop : ℚ → ℚ

/-- The input fed into the recurrent layer by `Decoder.forward` of
`components.py`: `embedded = self.embedding(token)`, then
`embedded = self.dropout(embedded)`, then
`rnn_input = torch.cat((embedded, context), dim=2)`. -/
def CDecoder.rnnInput {V E encU B : ℕ} (m : CDecoder V E encU)
    (token : Fin B → ℕ) (context : Fin B → Vec (encU + encU)) :
    Fin B → Vec (E + (encU + encU)) :=
  let embedded : Fin B → Vec E := fun b => m.embedding.lookup (token b)
  let embedded2 : Fin B → Vec E := fun b i => m.drop (embedded b i)
  fun b => catVec (embedded2 b) (context b)

/-- The decoder's recurrent input as the spec words it (decoder step 1:
embed the token, apply dropout; step 2: concatenate with the context
vector): the *dropped* embedding is what gets concatenated. -/
def specDecoderRnnInput {E D B : ℕ} (emb : ℕ → Vec E) (drop : ℚ → ℚ)
    (token : Fin B → ℕ) (context : Fin B → Vec D) : Fin B → Vec (E + D) :=
  fun b => catVec (fun i => drop (emb (token b) i)) (context b)

/-- **C7** (amended).  In the learned-projection decoder (`components.py`)
the embedded previous token is passed through dropout before being
concatenated with the context vector, exactly as the spec's decoder step 1
words it; in the summation-variant decoder (`encoder_decoder.py`) the *raw*
embedding is concatenated with the context vector — there dropout is applied
only to the combined features before the output projection. -/
theorem decoder_embedding_dropout_placement {V E encU V2 E2 U B : ℕ} :
    (∀ (m : CDecoder V E encU) (token : Fin B → ℕ)
      (context : Fin B → Vec (encU + encU)),
      m.rnnInput token context =
        specDecoderRnnInput m.embedding.lookup m.drop token context) ∧
    (∀ (m : Decoder V2 E2 U) (token : Fin B → ℕ)
      (context : Fin B → Vec (U + U)),
      m.rnnInput token context =
        fun b => catVec (m.embedding.lookup (token b)) (context b)) :=
  ⟨fun _ _ _ => rfl, fun _ _ _ => rfl⟩

/-- A concrete summation-variant decoder whose dropout map is not the
identity (it zeroes its input) and whose embedding table is the constant 1. -/
def decDrop : Decoder 1 1 1 := ⟨⟨fun _ _ => 1⟩, zeroGRU 3 1, zeroLinear 4 1, fun _ => 0⟩

/-- **C7** fails as stated on `encoder_decoder.py`: for the summation-variant
decoder, the recurrent input concatenates the raw embedding, not the dropped
one — on a module whose dropout zeroes its input the two differ. -/
theorem decoder_raw_embedding_counterexample :
    Decoder.rnnInput decDrop (fun _ : Fin 1 => 0)
        (fun _ : Fin 1 => (fun _ => 0 : Vec (1 + 1))) ≠
      specDecoderRnnInput (Embedding.lookup decDrop.embedding) decDrop.drop
        (fun _ : Fin 1 => 0) (fun _ : Fin 1 => (fun _ => 0 : Vec (1 + 1))) := by
  intro h
  have h0 := congrFun (congrFun h ⟨0, Nat.one_pos⟩) ⟨0, by omega⟩
  simp [Decoder.rnnInput, specDecoderRnnInput, catVec, Embedding.lookup,
    decDrop] at h0

/-! ### Construction-time validation

The repository's `__init__` methods perform no validation of their own: any
rejection of an invalid configuration happens inside the torch module
constructors they call.  The model below records, per torch constructor, the
documented construction-time checks (`nn.Dropout` rejects a probability
outside `[0, 1]`; `nn.GRU`/`nn.LSTM` reject `hidden_size ≤ 0`,
`num_layers ≤ 0` and an out-of-range recurrent dropout; a negative tensor
dimension cannot be created), and composes them in the order the repository's
constructors run them. -/

namespace Construct

/-- Sequencing of two construction steps: the second runs only when the
first succeeded (the `Except` bind specialized to `Unit`). -/
def seqE (a b : Except String Unit) : Except String Unit :=
  match a with
  | .error msg => .error msg
  | .ok _ => b

/-- `nn.Dropout(p)`: raises `ValueError` at construction when the
probability lies outside `[0, 1]`. -/
def mkDropout (p : ℚ) : Except String Unit :=
  if 0 ≤ p ∧ p ≤ 1 then .ok ()
  else .error "dropout probability has to be between 0 and 1"

/-- `nn.Linear(inF, outF)`: raises at construction when either feature count
is negative (a tensor cannot have a negative dimension); a zero feature
count is accepted and yields an empty weight matrix. -/
def mkLinear (inF outF : ℤ) : Except String Unit :=
  if 0 ≤ inF ∧ 0 ≤ outF then .ok ()
  else .error "Trying to create tensor with negative dimension"

/-- `nn.GRU` / `nn.LSTM` construction (torch `RNNBase`): raises at
construction when the recurrent dropout probability is outside `[0, 1]`,
when `hidden_size ≤ 0`, when `num_layers ≤ 0`, or when the input size is
negative. -/
def mkRNN (inputSize hiddenSize numLayers : ℤ) (dropout : ℚ) :
    Except String Unit :=
  if ¬(0 ≤ dropout ∧ dropout ≤ 1) then
    .error "dropout should be a number in range [0, 1]"
  else if hiddenSize ≤ 0 then .error "hidden_size must be greater than zero"
  else if numLayers ≤ 0 then .error "num_layers must be greater than zero"
  else if inputSize < 0 then
    .error "Trying to create tensor with negative dimension"
  else .ok ()

/-- `Encoder.__init__(embed_weights, units, dropout)` of
`encoder_decoder.py`: frozen embedding (never fails), then
`nn.GRU(embed_dim, units, bidirectional=True)` (one layer, recurrent
dropout 0), then `nn.Linear(units * 2, units)`, then `nn.Dropout(dropout)`. -/
def mkEncoder (embedDim units : ℤ) (dropout : ℚ) : Except String Unit :=
  seqE (mkRNN embedDim units 1 0)
    (seqE (mkLinear (units * 2) units) (mkDropout dropout))

/-- `Attention.__init__(state_dim, units, dropout=0)` of
`encoder_decoder.py`: `nn.Linear(state_dim * 3, units)`, then
`nn.Dropout(0)` (the orchestrator leaves the default). -/
def mkAttention (stateDim units : ℤ) : Except String Unit :=
  seqE (mkLinear (stateDim * 3) units) (mkDropout 0)

/-- `Decoder.__init__(embed_weights, units, context_size, dropout)` of
`encoder_decoder.py`: frozen embedding, then
`nn.GRU((units * 2) + embed_dim, units)`, then
`nn.Linear(units + context_size + embed_dim, vocab_size)`, then
`nn.Dropout(dropout)`. -/
def mkDecoder (embedDim vocab units contextSize : ℤ) (dropout : ℚ) :
    Except String Unit :=
  seqE (mkRNN (units * 2 + embedDim) units 1 0)
    (seqE (mkLinear (units + contextSize + embedDim) vocab) (mkDropout dropout))

/-- `EncoderDecoder.__init__(device, embed_src, embed_trg, rnn_units,
attn_units, dropout)`: `Encoder(embed_src, rnn_units, dropout)`, then
`Attention(rnn_units, attn_units)`, then
`Decoder(embed_trg, rnn_units, 2 * rnn_units, dropout)`. -/
def mkEncoderDecoder (embedDimSrc embedDimTrg vocabTrg rnnUnits attnUnits : ℤ)
    (dropout : ℚ) : Except String Unit :=
  seqE (mkEncoder embedDimSrc rnnUnits dropout)
    (seqE (mkAttention rnnUnits attnUnits)
      (mkDecoder embedDimTrg vocabTrg rnnUnits (2 * rnnUnits) dropout))

/-- `Encoder.__init__(embed_weights, units, enc_layers, dropout)` of
`components.py`: frozen embedding, then `nn.Dropout(dropout)`, then
`nn.LSTM(embed_dim, units, num_layers=enc_layers, dropout=dropout,
bidirectional=True)`. -/
def mkCEncoder (embedDim units layers : ℤ) (dropout : ℚ) :
    Except String Unit :=
  seqE (mkDropout dropout) (mkRNN embedDim units layers dropout)

theorem seqE_ok_iff (a b : Except String Unit) :
    seqE a b = .ok () ↔ (a = .ok () ∧ b = .ok ()) := by
  cases a with
  | error msg => simp [seqE]
  | ok u => cases u; simp [seqE]

theorem except_error_of_ne_ok (x : Except String Unit) (h : ¬ x = .ok ()) :
    ∃ msg, x = .error msg := by
  cases x with
  | error msg => exact ⟨msg, rfl⟩
  | ok u => cases u; exact absurd rfl h

theorem mkDropout_ok_iff (p : ℚ) :
    mkDropout p = .ok () ↔ (0 ≤ p ∧ p ≤ 1) := by
  unfold mkDropout
  split_ifs with h <;> simp_all

theorem mkLinear_ok_iff (i o : ℤ) :
    mkLinear i o = .ok () ↔ (0 ≤ i ∧ 0 ≤ o) := by
  unfold mkLinear
  split_ifs with h <;> simp_all

theorem mkRNN_ok_iff (i h l : ℤ) (d : ℚ) :
    mkRNN i h l d = .ok () ↔
      ((0 ≤ d ∧ d ≤ 1) ∧ 0 < h ∧ 0 < l ∧ 0 ≤ i) := by
  unfold mkRNN
  split_ifs with h1 h2 h3 h4 <;> simp_all

theorem mkEncoderDecoder_ok_iff (Es Et Vt : ℕ) (rnn attn : ℤ) (p : ℚ) :
    mkEncoderDecoder (Es : ℤ) (Et : ℤ) (Vt : ℤ) rnn attn p = .ok () ↔
      ((0 ≤ p ∧ p ≤ 1) ∧ 0 < rnn ∧ 0 ≤ attn) := by
  unfold mkEncoderDecoder mkEncoder mkAttention mkDecoder
  rw [seqE_ok_iff, seqE_ok_iff, seqE_ok_iff, seqE_ok_iff, seqE_ok_iff,
    seqE_ok_iff, seqE_ok_iff, mkRNN_ok_iff, mkRNN_ok_iff, mkLinear_ok_iff,
    mkLinear_ok_iff, mkLinear_ok_iff, mkDropout_ok_iff, mkDropout_ok_iff]
  constructor
  · rintro ⟨⟨⟨-, hrnn, -, -⟩, -, hp1, hp2⟩, ⟨⟨-, hattn⟩, -⟩, -⟩
    exact ⟨⟨hp1, hp2⟩, hrnn, hattn⟩
  · rintro ⟨hp, hrnn, hattn⟩
    exact ⟨⟨⟨⟨by norm_num, by norm_num⟩, hrnn, by norm_num, by omega⟩,
        ⟨by omega, by omega⟩, hp.1, hp.2⟩,
      ⟨⟨by omega, hattn⟩, by norm_num, by norm_num⟩,
      ⟨⟨by norm_num, by norm_num⟩, hrnn, by norm_num, by omega⟩,
      ⟨by omega, by omega⟩, hp.1, hp.2⟩

theorem mkCEncoder_ok_iff (Ec : ℕ) (units layers : ℤ) (q : ℚ) :
    mkCEncoder (Ec : ℤ) units layers q = .ok () ↔
      ((0 ≤ q ∧ q ≤ 1) ∧ 0 < units ∧ 0 < layers) := by
  unfold mkCEncoder
  rw [seqE_ok_iff, mkDropout_ok_iff, mkRNN_ok_iff]
  constructor
  · rintro ⟨hq, -, hu, hl, -⟩
    exact ⟨hq, hu, hl⟩
  · rintro ⟨hq, hu, hl⟩
    exact ⟨hq, hq, hu, hl, by omega⟩

end Construct

/-- **C6** (amended).  A dropout probability outside `[0, 1]`, a
non-positive recurrent unit count, a *negative* attention unit count and —
for the `components.py` encoder — a non-positive unit or layer count are all
rejected with an error at construction time (by the torch constructors the
repository's `__init__` methods call); an attention unit count of zero,
however, is accepted (see `attn_units_zero_accepted`). -/
theorem invalid_config_rejected_at_construction (Es Et Vt Ec : ℕ)
    (rnn attn units layers : ℤ) (p q : ℚ)
    (h1 : ¬(0 ≤ p ∧ p ≤ 1) ∨ rnn ≤ 0 ∨ attn < 0)
    (h2 : ¬(0 ≤ q ∧ q ≤ 1) ∨ units ≤ 0 ∨ layers ≤ 0) :
    (∃ msg, Construct.mkEncoderDecoder (Es : ℤ) (Et : ℤ) (Vt : ℤ) rnn attn p =
      .error msg) ∧
    (∃ msg, Construct.mkCEncoder (Ec : ℤ) units layers q = .error msg) := by
  constructor
  · apply Construct.except_error_of_ne_ok
    intro hok
    rw [Construct.mkEncoderDecoder_ok_iff] at hok
    rcases h1 with hp | hr | ha
    · exact hp hok.1
    · exact absurd hok.2.1 (not_lt.mpr hr)
    · exact absurd hok.2.2 (not_le.mpr ha)
  · apply Construct.except_error_of_ne_ok
    intro hok
    rw [Construct.mkCEncoder_ok_iff] at hok
    rcases h2 with hq | hu | hl
    · exact hq hok.1
    · exact absurd hok.2.1 (not_lt.mpr hu)
    · exact absurd hok.2.2 (not_lt.mpr hl)

/-- **C6** fails as stated: an attention unit count of 0 is a non-positive
unit count, yet the model constructs without any error — `nn.Linear` accepts
zero out-features — so the invalid value is accepted at construction and
surfaces (or not) only later. -/
theorem attn_units_zero_accepted :
    Construct.mkEncoderDecoder 50 50 100 8 0 (3 / 10) = .ok () := by
  rw [show ((50 : ℤ)) = ((50 : ℕ) : ℤ) from rfl,
    show ((100 : ℤ)) = ((100 : ℕ) : ℤ) from rfl]
  rw [Construct.mkEncoderDecoder_ok_iff]
  norm_num

/-- Witness for `invalid_config_rejected_at_construction` at a concrete
invalid configuration (dropout probability 2). -/
theorem invalid_config_rejected_witness :
    ((¬((0 : ℚ) ≤ 2 ∧ (2 : ℚ) ≤ 1) ∨ (8 : ℤ) ≤ 0 ∨ (8 : ℤ) < 0) ∧
      (¬((0 : ℚ) ≤ 2 ∧ (2 : ℚ) ≤ 1) ∨ (8 : ℤ) ≤ 0 ∨ (2 : ℤ) ≤ 0)) ∧
    ((∃ msg, Construct.mkEncoderDecoder ((50 : ℕ) : ℤ) ((50 : ℕ) : ℤ)
        ((100 : ℕ) : ℤ) 8 8 2 = .error msg) ∧
      (∃ msg, Construct.mkCEncoder ((50 : ℕ) : ℤ) 8 2 2 = .error msg)) :=
  ⟨⟨Or.inl (by norm_num), Or.inl (by norm_num)⟩,
    invalid_config_rejected_at_construction 50 50 100 50 8 8 8 2 2 2
      (Or.inl (by norm_num)) (Or.inl (by norm_num))⟩

/-! ### Feature-dimension shape flow

The value-level embedding above is intrinsically well-shaped along the
sequence and batch axes (they are `Fin` index types).  What remains of shape
safety is agreement of the *feature* dimensions at every layer boundary of
the rollout — exactly what torch checks at runtime.  The calculus below
tracks the feature dimension through every operation of
`EncoderDecoder.forward` as the source composes them, returning `none` at
the first mismatch. -/

namespace Shapes

/-- Feature signature of `nn.Linear(inF, outF)`. -/
structure LinearS : Type where
  inF : ℕ
  outF : ℕ

/-- Applying a linear layer to a feature vector of width `x`. -/
def linearS (f : LinearS) (x : ℕ) : Option ℕ :=
  if x = f.inF then some f.outF else none

/-- Feature signature of `nn.GRU(inF, hid)`. -/
structure RNNS : Type where
  inF : ℕ
  hid : ℕ

/-- One unidirectional recurrent step on input width `x` and state width
`h`. -/
def rnnStepS (g : RNNS) (x h : ℕ) : Option ℕ :=
  if x = g.inF ∧ h = g.hid then some g.hid else none

/-- A bidirectional recurrent run over the source on input width `x`:
per-position outputs have width `2 * hid` (both directions concatenated),
each final directional state has width `hid`. -/
def rnnBidirS (g : RNNS) (x : ℕ) : Option (ℕ × ℕ) :=
  if x = g.inF then some (2 * g.hid, g.hid) else none

/-- `torch.cat` along the feature axis. -/
def catS (a b : ℕ) : ℕ := a + b

/-- Feature flow of `Encoder.forward`: embed to width `Es`, bidirectional
`nn.GRU(Es, U)`, concatenate the two final directional states and project
through `nn.Linear(U * 2, U)`.  Returns (encoder output width, state
width). -/
def encoderS (Es U : ℕ) : Option (ℕ × ℕ) :=
  (rnnBidirS ⟨Es, U⟩ Es).bind fun os =>
    (linearS ⟨U * 2, U⟩ (catS os.2 os.2)).bind fun st =>
      some (os.1, st)

/-- Feature flow of `Attention.forward`: the decoder state concatenated with
an encoder output must fit `nn.Linear(U * 3, A)`; summation and softmax then
yield one scalar weight per source position. -/
def attentionS (U A decF encOutF : ℕ) : Option Unit :=
  (linearS ⟨U * 3, A⟩ (catS decF encOutF)).bind fun _ => some ()

/-- Feature flow of `_compute_context`: attention weights, then `bmm` of the
`(B, 1, L)` weights with the `(B, L, encOutF)` encoder outputs — the inner
`L` axes agree by construction — giving a context of width `encOutF`. -/
def contextS (U A decF encOutF : ℕ) : Option ℕ :=
  (attentionS U A decF encOutF).bind fun _ => some encOutF

/-- Feature flow of `Decoder.forward`: embed to width `Et`, concatenate with
the context and feed `nn.GRU(U * 2 + Et, U)`, then concatenate GRU output,
context and embedding and feed `nn.Linear(U + 2 * U + Et, Vt)`.  Returns
(logits width, new state width). -/
def decoderS (Et Vt U ctxF stF : ℕ) : Option (ℕ × ℕ) :=
  (rnnStepS ⟨U * 2 + Et, U⟩ (catS Et ctxF) stF).bind fun outF =>
    (linearS ⟨U + 2 * U + Et, Vt⟩ (catS outF (catS ctxF Et))).bind fun lg =>
      some (lg, outF)

/-- Feature flow of one decode-loop iteration: context, decoder step, then
the write `outputs[t] = out` into the width-`Vt` output tensor.  Returns the
new decoder state width. -/
def stepS (Et Vt U A encOutF stF : ℕ) : Option ℕ :=
  (contextS U A stF encOutF).bind fun ctxF =>
    (decoderS Et Vt U ctxF stF).bind fun p =>
      if p.1 = Vt then some p.2 else none

/-- Feature flow of `n` decode-loop iterations threading the decoder state
width. -/
def loopS (Et Vt U A encOutF : ℕ) : ℕ → ℕ → Option ℕ
  | 0, stF => some stF
  | n + 1, stF => (stepS Et Vt U A encOutF stF).bind (loopS Et Vt U A encOutF n)

/-- Feature flow of the whole `EncoderDecoder.forward` rollout over a
target of length `maxLen`: encode once, run the loop `maxLen - 1` times;
on success every stored logits row has width `Vt`. -/
def forwardS (Es Et Vt U A maxLen : ℕ) : Option ℕ :=
  (encoderS Es U).bind fun es =>
    (loopS Et Vt U A es.1 (maxLen - 1) es.2).bind fun _ => some Vt

end Shapes

theorem encoderS_eval (Es U : ℕ) :
    Shapes.encoderS Es U = some (2 * U, U) := by
  have h1 : U + U = U * 2 := by ring
  simp [Shapes.encoderS, Shapes.rnnBidirS, Shapes.linearS, Shapes.catS, h1]

theorem stepS_eval (Et Vt U A : ℕ) :
    Shapes.stepS Et Vt U A (2 * U) U = some U := by
  have h1 : U + 2 * U = U * 3 := by ring
  have h2 : Et + 2 * U = U * 2 + Et := by ring
  have h3 : U + (2 * U + Et) = U + 2 * U + Et := by ring
  simp [Shapes.stepS, Shapes.contextS, Shapes.attentionS, Shapes.decoderS,
    Shapes.rnnStepS, Shapes.linearS, Shapes.catS, h1, h2, h3]

theorem loopS_eval (Et Vt U A n : ℕ) :
    Shapes.loopS Et Vt U A (2 * U) n U = some U := by
  induction n with
  | zero => rfl
  | succ n ih => simp [Shapes.loopS, stepS_eval, ih]

/-- **C9**.  For every positive `rnn_units` (and any embedding widths,
vocabulary sizes and target length), the orchestrator's forward pass is
shape-safe end to end: with encoder, attention and decoder all built from
the single shared `rnn_units`, the encoder output width `2 * rnn_units`, the
attention input width `3 * rnn_units` and the decoder recurrent input width
`2 * rnn_units + embed_dim` all agree, and the feature-dimension flow of the
whole rollout completes without a layer-boundary mismatch (the sequence and
batch axes, and the vocabulary bounds on token ids, are handled intrinsically
by the value-level embedding's index types). -/
theorem forward_shape_safe (Es Et Vt U A maxLen : ℕ) (hU : 0 < U) :
    Shapes.forwardS Es Et Vt U A maxLen = some Vt := by
  simp [Shapes.forwardS, encoderS_eval, loopS_eval]

/-- Witness for `forward_shape_safe` at the spec's scenario configuration
(`rnn_units = 8`, `attn_units = 8`, embedding width 50, target vocabulary
100, target length 4). -/
theorem forward_shape_safe_witness :
    0 < 8 ∧ Shapes.forwardS 50 50 100 8 8 4 = some 100 :=
  ⟨by omega, forward_shape_safe 50 50 100 8 8 4 (by omega)⟩

end Cleartext
